import Mathlib

/-!
Verification of the attestation-dashboard data logic (`src/main.py`).

The program is a Streamlit dashboard over pandas DataFrames.  We embed the
tabular data model shallowly:

* a cell `Value` is null (pandas `NaN`/`NA`), an integer, a float (modelled
  as `Rat`; the program never relies on float rounding), or a string;
* a `Table` is a column-name list plus a list of rows, each row a list of
  cells positionally aligned with the columns (as produced by `pd.read_csv`);
* a raised Python exception is modelled by `Option.none` in the result of
  the embedded function.
-/

/-- A cell of a pandas DataFrame. -/
inductive Value where
  | null
  | int (n : Int)
  | float (q : Rat)
  | str (s : String)
deriving DecidableEq, Repr

/-- An in-memory table: the CSV header plus the rows in file order. -/
structure Table where
  cols : List String
  rows : List (List Value)
deriving DecidableEq, Repr

/-- Cell of row `r` in the column at index `idx`; a missing position reads as
null (a well-formed frame has `r.length = cols.length`). -/
def cellAt (idx : Nat) (r : List Value) : Value :=
  r.getD idx Value.null

/-- `df[name]`: the column `name` as a series (list of cells). -/
def getCol (t : Table) (name : String) : List Value :=
  t.rows.map (cellAt (t.cols.indexOf name))

/-! ### Python numeric parsing

`int(s)` accepts an optional sign followed by digits; `pd.to_numeric` /
`float(s)` additionally accept a decimal point.  (Surrounding whitespace,
underscores and exponents are not used by the data and are not modelled.) -/

/-- Numeric value of a digit string (most significant digit first). -/
def digitsToNat (cs : List Char) : Nat :=
  cs.foldl (fun acc c => acc * 10 + (c.toNat - 48)) 0

/-- Python `int(s)`: optional sign, then at least one digit. -/
def parseInt? (s : String) : Option Int :=
  match s.toList with
  | [] => none
  | '-' :: rest =>
      if rest ≠ [] ∧ rest.all Char.isDigit then some (-(digitsToNat rest : Int)) else none
  | '+' :: rest =>
      if rest ≠ [] ∧ rest.all Char.isDigit then some (digitsToNat rest : Int) else none
  | cs =>
      if cs.all Char.isDigit then some (digitsToNat cs : Int) else none

/-- Digits with an optional decimal point, e.g. `12`, `12.5`, `.5`, `12.` -/
def parseUnsigned? (cs : List Char) : Option Rat :=
  match cs.span Char.isDigit with
  | (intPart, []) =>
      if intPart ≠ [] then some (digitsToNat intPart : Rat) else none
  | (intPart, '.' :: fracPart) =>
      if fracPart.all Char.isDigit ∧ (intPart ≠ [] ∨ fracPart ≠ []) then
        some ((digitsToNat intPart : Rat) +
          (digitsToNat fracPart : Rat) / ((10 : Rat) ^ fracPart.length))
      else none
  | _ => none

/-- Python `float(s)` / the numeric grammar accepted by `pd.to_numeric`. -/
def parseNum? (s : String) : Option Rat :=
  match s.toList with
  | '-' :: rest => (parseUnsigned? rest).map (fun q => -q)
  | '+' :: rest => parseUnsigned? rest
  | cs => parseUnsigned? cs

/-! ### Roster normalisation: `prepare_final` (`src/main.py:19-23`)

```python
def prepare_final(df):
    cleaned = df.copy()
    cleaned = cleaned[cleaned["id_employee"].notna()].copy()
    cleaned["id_employee"] = cleaned["id_employee"].astype(int)
    return cleaned
```
`none` models a raised exception: `KeyError` when the column is absent,
`ValueError`/`TypeError` from `astype(int)` on an unconvertible cell. -/

/-- Truncation toward zero, as in numpy's float→int cast / Python `int(x)`. -/
def ratTrunc (q : Rat) : Int :=
  if q < 0 then -((-q).floor) else q.floor

/-- `astype(int)` on one cell: ints pass through, floats truncate toward
zero, strings go through Python `int(s)`, `NaN` raises. -/
def astype_int (v : Value) : Option Int :=
  match v with
  | Value.null => none
  | Value.int n => some n
  | Value.float q => some (ratTrunc q)
  | Value.str s => parseInt? s

/-- `astype(int)` applied down the identifier column, rewriting each row's
cell at `idx`; fails if any cell fails. -/
def astypeIntRows (idx : Nat) : List (List Value) → Option (List (List Value))
  | [] => some []
  | r :: rest =>
      match astype_int (cellAt idx r), astypeIntRows idx rest with
      | some n, some rest' => some (r.set idx (Value.int n) :: rest')
      | _, _ => none

/-- `prepare_final`: drop rows with a null `id_employee`, cast the column to
int.  `none` models a raised exception. -/
def prepare_final (df : Table) : Option Table :=
  if "id_employee" ∈ df.cols then
    match astypeIntRows (df.cols.indexOf "id_employee")
        (df.rows.filter (fun r =>
          cellAt (df.cols.indexOf "id_employee") r ≠ Value.null)) with
    | some rs => some ⟨df.cols, rs⟩
    | none => none
  else none

/-! ### Detail filtering: `filtered_table` (`src/main.py:47-53`)

```python
def filtered_table(df, employee_id):
    if "id_employee" not in df.columns:
        return df.iloc[0:0]
    working = df.copy()
    working["id_employee"] = pd.to_numeric(working["id_employee"], errors="coerce").astype("Int64")
    filtered = working[working["id_employee"] == employee_id].copy()
    return filtered
```
-/

/-- `pd.to_numeric(·, errors="coerce")` on one cell: numbers pass through,
parseable strings become numbers, everything else (and `NaN`) becomes `NaN`
(`none`). -/
def to_numeric_coerce (v : Value) : Option Rat :=
  match v with
  | Value.null => none
  | Value.int n => some (n : Rat)
  | Value.float q => some q
  | Value.str s => parseNum? s

/-- `.astype("Int64")` on one (already numeric-or-NaN) cell: `NaN` becomes
`NA`, integral values cast, a non-integral value raises (pandas refuses the
unsafe float→Int64 cast); the outer `none` is the raise. -/
def astype_Int64 (x : Option Rat) : Option (Option Int) :=
  match x with
  | none => some none
  | some q => if q.den = 1 then some (some q.num) else none

/-- Cell view of a nullable `Int64` entry. -/
def int64ToValue (x : Option Int) : Value :=
  match x with
  | none => Value.null
  | some n => Value.int n

/-- The identifier-column coercion of `filtered_table` on one cell. -/
def coerce_id (v : Value) : Option Value :=
  (astype_Int64 (to_numeric_coerce v)).map int64ToValue

/-- The column assignment
`working["id_employee"] = pd.to_numeric(...).astype("Int64")`:
rewrites the cell at `idx` in every row; fails if the cast raises anywhere. -/
def coerceIdRows (idx : Nat) : List (List Value) → Option (List (List Value))
  | [] => some []
  | r :: rest =>
      match coerce_id (cellAt idx r), coerceIdRows idx rest with
      | some v, some rest' => some (r.set idx v :: rest')
      | _, _ => none

/-- `filtered_table`: rows of `df` whose coerced `id_employee` equals
`employee_id`; an empty same-schema table when the column is absent.
`none` models a raised exception (non-integral numeric id). -/
def filtered_table (df : Table) (employee_id : Int) : Option Table :=
  if "id_employee" ∈ df.cols then
    match coerceIdRows (df.cols.indexOf "id_employee") df.rows with
    | some rs =>
        some ⟨df.cols,
          rs.filter (fun r =>
            cellAt (df.cols.indexOf "id_employee") r = Value.int employee_id)⟩
    | none => none
  else some ⟨df.cols, []⟩

/-! ### Numeric series operations (pandas `.sum()` / `.mean()`)

Both skip `NaN`; on a column containing strings they do not compute a
numeric result (modelled as `none`). -/

/-- Numeric reading of a cell; `none` for null and strings. -/
def ratOfValue? (v : Value) : Option Rat :=
  match v with
  | Value.int n => some (n : Rat)
  | Value.float q => some q
  | _ => none

/-- The numeric cells of a series, nulls skipped; `none` if a string cell
makes the column non-numeric. -/
def numericCells : List Value → Option (List Rat)
  | [] => some []
  | Value.str _ :: _ => none
  | Value.null :: rest => numericCells rest
  | Value.int n :: rest => (numericCells rest).map (fun l => (n : Rat) :: l)
  | Value.float q :: rest => (numericCells rest).map (fun l => q :: l)

/-- `series.sum()`: sum of the non-null cells (0 on an empty/all-null
series). -/
def series_sum (vs : List Value) : Option Rat :=
  (numericCells vs).map List.sum

/-- `series.mean()`: mean of the non-null cells; the inner `none` is the
`NaN` mean of an empty/all-null series. -/
def series_mean (vs : List Value) : Option (Option Rat) :=
  (numericCells vs).map (fun l =>
    if l.length = 0 then none else some (l.sum / (l.length : Rat)))

/-! ### Two-decimal display: Python `f"{x:.2f}"` -/

/-- Round to the nearest integer, ties to even (Python float formatting). -/
def roundHalfEven (q : Rat) : Int :=
  if q - q.floor < 1/2 then q.floor
  else if 1/2 < q - q.floor then q.floor + 1
  else if q.floor % 2 = 0 then q.floor else q.floor + 1

/-- Two decimal digits, left-padded with `0`. -/
def pad2 (n : Nat) : String :=
  if n < 10 then "0" ++ toString n else toString n

/-- `f"{x:.2f}"`. -/
def format2 (q : Rat) : String :=
  (if roundHalfEven (q * 100) < 0 then "-" else "") ++
    toString ((roundHalfEven (q * 100)).natAbs / 100) ++ "." ++
    pad2 ((roundHalfEven (q * 100)).natAbs % 100)

/-! ### Aggregators (`src/main.py:141-190`), each applied to the already
filtered table of its tab. -/

/-- Discipline tab (`src/main.py:141-143`):
`filtered["discipline_points"].sum() if "discipline_points" in filtered.columns else 0`. -/
def discipline_total (filtered : Table) : Option Rat :=
  if "discipline_points" ∈ filtered.cols then
    series_sum (getCol filtered "discipline_points")
  else some 0

/-- Errors tab, count line (`src/main.py:145`): `len(filtered)`. -/
def errors_count (filtered : Table) : Nat :=
  filtered.rows.length

/-- `series.fillna(x)` on one cell. -/
def fillna (x : Value) (v : Value) : Value :=
  match v with
  | Value.null => x
  | w => w

/-- Insert while keeping counts in descending order (stable for ties). -/
def insertByCount (p : Value × Nat) : List (Value × Nat) → List (Value × Nat)
  | [] => [p]
  | q :: rest => if q.2 < p.2 then p :: q :: rest else q :: insertByCount p rest

/-- Sort key/count pairs by descending count. -/
def sortByCountDesc : List (Value × Nat) → List (Value × Nat)
  | [] => []
  | p :: rest => insertByCount p (sortByCountDesc rest)

/-- `series.value_counts()`: one pair per distinct value with its number of
occurrences, sorted by descending count. -/
def value_counts (vs : List Value) : List (Value × Nat) :=
  sortByCountDesc (vs.dedup.map (fun v => (v, vs.count v)))

/-- Errors tab, per-area breakdown (`src/main.py:146-156`):
`filtered["area"].fillna("Не указано").value_counts()`, produced only when
rows exist and the column is present. -/
def errors_area_counts (filtered : Table) : Option (List (Value × Nat)) :=
  if filtered.rows.length ≠ 0 ∧ "area" ∈ filtered.cols then
    some (value_counts ((getCol filtered "area").map (fillna (Value.str "Не указано"))))
  else none

/-- Errors tab, per-product breakdown (`src/main.py:157-166`). -/
def errors_product_counts (filtered : Table) : Option (List (Value × Nat)) :=
  if filtered.rows.length ≠ 0 ∧ "product" ∈ filtered.cols then
    some (value_counts ((getCol filtered "product").map (fillna (Value.str "Не указано"))))
  else none

/-- Ranks tab (`src/main.py:179-184`): mean of `mark` to two decimals when
the column exists and is non-empty, otherwise the no-data sentinel.  The
outer `none` is a raised exception (non-numeric `mark` column); a mean of
`NaN` (all-null column) formats as `nan`. -/
def ranks_line (filtered : Table) : Option String :=
  if "mark" ∈ filtered.cols ∧ filtered.rows ≠ [] then
    match series_mean (getCol filtered "mark") with
    | some (some m) => some ("Средний разряд (среднее mark): " ++ format2 m)
    | some none => some "Средний разряд (среднее mark): nan"
    | none => none
  else some "Средний разряд (среднее mark): нет данных"

/-- Python `float(x)` on a cell: `NaN` stays `NaN` (inner `none`),
an unparseable string raises (outer `none`). -/
def pythonFloat? (v : Value) : Option (Option Rat) :=
  match v with
  | Value.null => some none
  | Value.int n => some (some (n : Rat))
  | Value.float q => some (some q)
  | Value.str s => (parseNum? s).map some

/-- Performance tab (`src/main.py:185-190`): the `performance_points` value
of the first filtered row to two decimals when the column exists and rows
matched, otherwise the no-data sentinel. -/
def performance_line (filtered : Table) : Option String :=
  if "performance_points" ∈ filtered.cols ∧ filtered.rows ≠ [] then
    match pythonFloat? (cellAt (filtered.cols.indexOf "performance_points")
        (filtered.rows.headD [])) with
    | some (some q) => some ("Итоговый балл: " ++ format2 q)
    | some none => some "Итоговый балл: nan"
    | none => none
  else some "Итоговый балл: нет данных"

/-! ### Authentication state machine (`src/main.py:60-75`)

```python
if "authenticated" not in st.session_state:
    st.session_state.authenticated = False
if not st.session_state.authenticated:
    ... form ...
    if submitted:
        if username == LOGIN_USER and password == LOGIN_PASS:
            st.session_state.authenticated = True
            st.rerun()
        else:
            st.error("Неверный логин или пароль.")
    return
```
-/

/-- The per-session state relevant to authentication. -/
structure SessionState where
  authenticated : Bool
deriving DecidableEq, Repr

/-- The two configured secrets (`st.secrets["auth"]`). -/
structure AuthConfig where
  login_user : String
  login_pass : String

/-- One user interaction, as seen by the login gate. -/
inductive UiEvent where
  | submitLogin (username password : String)
  | interact

/-- One render cycle of the login gate: returns the new state and whether
the inline error message was shown. -/
def auth_step (cfg : AuthConfig) (s : SessionState) (ev : UiEvent) : SessionState × Bool :=
  if s.authenticated then (s, false)
  else
    match ev with
    | UiEvent.submitLogin u p =>
        if u = cfg.login_user ∧ p = cfg.login_pass then (⟨true⟩, false)
        else (s, true)
    | UiEvent.interact => (s, false)

/-- A whole session: fold the login gate over the interaction trace. -/
def run_auth (cfg : AuthConfig) (s : SessionState) : List UiEvent → SessionState
  | [] => s
  | ev :: evs => run_auth cfg (auth_step cfg s ev).1 evs

/-! ### Object-identity model for the mutation claim

pandas DataFrames are heap objects mutated in place; `df.copy()` and
`.copy()` after slicing allocate fresh objects, and column assignment
mutates the object it is applied to.  To state that `prepare_final` and
`filtered_table` never mutate their argument we run their bodies over an
explicit heap of tables: addresses are list indices, allocation appends. -/

/-- The heap of live DataFrame objects. -/
abbrev Heap : Type := List Table

/-- Dereference an address. -/
def readT (h : Heap) (a : Nat) : Option Table :=
  List.get? h a

/-- Allocate a fresh object, returning its address. -/
def allocT (h : Heap) (t : Table) : Heap × Nat :=
  (List.append h [t], List.length h)

/-- In-place mutation of the object at `a`. -/
def writeT (h : Heap) (a : Nat) (t : Table) : Heap :=
  List.set h a t

/-- `prepare_final` run on the heap: the argument lives at address `a`; the
result is the new heap plus the address of the returned object (`none` when
the call raises).  Mirrors `src/main.py:19-23` statement by statement. -/
def prepare_final_heap (h : Heap) (a : Nat) : Heap × Option Nat :=
  match readT h a with
  | none => (h, none)
  | some df =>
      match allocT h df with                     -- cleaned = df.copy()
      | (h1, _) =>
          if "id_employee" ∈ df.cols then
            match allocT h1 ⟨df.cols,            -- cleaned = cleaned[...notna()].copy()
                df.rows.filter (fun r =>
                  cellAt (df.cols.indexOf "id_employee") r ≠ Value.null)⟩ with
            | (h2, c) =>
                match astypeIntRows (df.cols.indexOf "id_employee")
                    (df.rows.filter (fun r =>
                      cellAt (df.cols.indexOf "id_employee") r ≠ Value.null)) with
                | some rs =>                     -- cleaned["id_employee"] = ...astype(int)
                    (writeT h2 c ⟨df.cols, rs⟩, some c)
                | none => (h2, none)             -- astype raised
          else (h1, none)                        -- KeyError on cleaned["id_employee"]

/-- `filtered_table` run on the heap, mirroring `src/main.py:47-53`:
copy, coerce the id column in place on the copy, slice-copy the matching
rows into a fresh object. -/
def filtered_table_heap (h : Heap) (a : Nat) (employee_id : Int) : Heap × Option Nat :=
  match readT h a with
  | none => (h, none)
  | some df =>
      if "id_employee" ∈ df.cols then
        match allocT h df with                   -- working = df.copy()
        | (h1, b) =>
            match coerceIdRows (df.cols.indexOf "id_employee") df.rows with
            | some rs =>                         -- working["id_employee"] = ...
                match allocT (writeT h1 b ⟨df.cols, rs⟩)
                    ⟨df.cols, rs.filter (fun r =>
                      cellAt (df.cols.indexOf "id_employee") r = Value.int employee_id)⟩ with
                | (h3, c) => (h3, some c)        -- filtered = working[...].copy()
            | none => (h1, none)                 -- astype("Int64") raised
      else
        match allocT h ⟨df.cols, []⟩ with        -- return df.iloc[0:0]
        | (h1, c) => (h1, some c)

/-! ### Helper lemmas -/

lemma cellAt_set_self {r : List Value} {idx : Nat} (v : Value) (h : idx < r.length) :
    cellAt idx (r.set idx v) = v := by
  simp [cellAt, List.getD_eq_getElem?_getD, List.getElem?_set_self h]

lemma cellAt_of_length_le {r : List Value} {idx : Nat} (h : r.length ≤ idx) :
    cellAt idx r = Value.null := by
  simp [cellAt, List.getD_eq_getElem?_getD, List.getElem?_eq_none h]

lemma lt_of_cellAt_ne_null {r : List Value} {idx : Nat} (h : cellAt idx r ≠ Value.null) :
    idx < r.length := by
  by_contra hle
  exact h (cellAt_of_length_le (by omega))

lemma numericCells_eq_filterMap {vs : List Value} :
    ∀ {l : List Rat}, numericCells vs = some l → l = vs.filterMap ratOfValue? := by
  induction vs with
  | nil =>
      intro l h
      simp [numericCells] at h
      simp [h.symm]
  | cons v rest ih =>
      intro l h
      cases v with
      | str s => simp [numericCells] at h
      | null =>
          rw [show numericCells (Value.null :: rest) = numericCells rest from rfl] at h
          simpa [ratOfValue?] using ih h
      | int n =>
          rw [show numericCells (Value.int n :: rest) =
              (numericCells rest).map (fun l => (n : Rat) :: l) from rfl] at h
          cases hrest : numericCells rest with
          | none => rw [hrest] at h; simp at h
          | some l' =>
              rw [hrest] at h
              simp at h
              simp [h.symm, ratOfValue?, ih hrest]
      | float q =>
          rw [show numericCells (Value.float q :: rest) =
              (numericCells rest).map (fun l => q :: l) from rfl] at h
          cases hrest : numericCells rest with
          | none => rw [hrest] at h; simp at h
          | some l' =>
              rw [hrest] at h
              simp at h
              simp [h.symm, ratOfValue?, ih hrest]

/-! ### Claim theorems -/

/-- C10: `prepare_final` is not permissive about table shape — on a table
without an `id_employee` column it raises a key-lookup error (modelled as
`none`) instead of returning an empty or unchanged table. -/
theorem prepare_final_requires_id_column (t : Table)
    (h : "id_employee" ∉ t.cols) : prepare_final t = none := by
  simp [prepare_final, h]

theorem prepare_final_requires_id_column_witness :
    "id_employee" ∉ (Table.mk ["fio_employee"] [[Value.str "a"]]).cols ∧
      prepare_final (Table.mk ["fio_employee"] [[Value.str "a"]]) = none := by
  refine ⟨by decide, prepare_final_requires_id_column _ (by decide)⟩

/-- C2: on a table lacking the `id_employee` column, `filtered_table`
returns an empty table with the input's schema and zero rows, and does not
fail. -/
theorem filtered_table_missing_column (t : Table) (employee_id : Int)
    (h : "id_employee" ∉ t.cols) :
    filtered_table t employee_id = some (Table.mk t.cols []) := by
  simp [filtered_table, h]

theorem filtered_table_missing_column_witness :
    "id_employee" ∉ (Table.mk ["area", "product"] [[Value.str "a", Value.str "b"]]).cols ∧
      filtered_table (Table.mk ["area", "product"] [[Value.str "a", Value.str "b"]]) 12 =
        some (Table.mk ["area", "product"] []) := by
  refine ⟨by decide, filtered_table_missing_column _ 12 (by decide)⟩

/-- C4: the session becomes authenticated exactly when the submitted
username and password both equal the configured secrets (plain string
comparison); on a mismatch the state stays unauthenticated and the error
message is shown; and once authenticated the flag is never reset by any
later interaction of the session. -/
theorem auth_state_machine (cfg : AuthConfig) :
    (∀ u p, ((auth_step cfg ⟨false⟩ (UiEvent.submitLogin u p)).1.authenticated = true)
        ↔ (u = cfg.login_user ∧ p = cfg.login_pass)) ∧
    (∀ u p, ¬(u = cfg.login_user ∧ p = cfg.login_pass) →
        auth_step cfg ⟨false⟩ (UiEvent.submitLogin u p) = (⟨false⟩, true)) ∧
    (∀ evs s, s.authenticated = true → (run_auth cfg s evs).authenticated = true) := by
  refine ⟨?_, ?_, ?_⟩
  · intro u p
    by_cases hc : u = cfg.login_user ∧ p = cfg.login_pass
    · simp [auth_step, hc]
    · simp [auth_step, hc]
  · intro u p hc
    simp [auth_step, hc]
  · intro evs
    induction evs with
    | nil => intro s hs; simpa [run_auth] using hs
    | cons ev rest ih =>
        intro s hs
        have hstep : (auth_step cfg s ev).1.authenticated = true := by
          cases s with
          | mk b => cases b with
            | true => simp [auth_step]
            | false => simp at hs
        simpa [run_auth] using ih _ hstep

theorem auth_state_machine_witness :
    ((auth_step ⟨"admin", "s3cret"⟩ ⟨false⟩
        (UiEvent.submitLogin "admin" "s3cret")).1.authenticated = true) ∧
    (auth_step ⟨"admin", "s3cret"⟩ ⟨false⟩ (UiEvent.submitLogin "admin" "wrong") =
        (⟨false⟩, true)) ∧
    ((run_auth ⟨"admin", "s3cret"⟩ ⟨true⟩
        [UiEvent.interact, UiEvent.submitLogin "x" "y"]).authenticated = true) := by
  refine ⟨?_, ?_, ?_⟩
  · exact ((auth_state_machine ⟨"admin", "s3cret"⟩).1 "admin" "s3cret").mpr ⟨rfl, rfl⟩
  · exact (auth_state_machine ⟨"admin", "s3cret"⟩).2.1 "admin" "wrong" (by simp)
  · exact (auth_state_machine ⟨"admin", "s3cret"⟩).2.2 _ _ rfl

/-- C5: the Discipline aggregator returns the sum of the numeric
`discipline_points` column over the filtered rows (nulls contribute
nothing), and returns 0 when the column is absent or the table is empty. -/
theorem discipline_aggregator (t : Table) :
    (∀ l, "discipline_points" ∈ t.cols →
        numericCells (getCol t "discipline_points") = some l →
        discipline_total t =
          some (((getCol t "discipline_points").filterMap ratOfValue?).sum)) ∧
    ("discipline_points" ∉ t.cols → discipline_total t = some 0) ∧
    (t.rows = [] → discipline_total t = some 0) := by
  refine ⟨?_, ?_, ?_⟩
  · intro l hc hnum
    rw [discipline_total, if_pos hc, series_sum, hnum, Option.map_some',
      numericCells_eq_filterMap hnum]
  · intro hc
    simp [discipline_total, hc]
  · intro hrows
    by_cases hc : "discipline_points" ∈ t.cols
    · simp [discipline_total, hc, getCol, hrows, series_sum, numericCells]
    · simp [discipline_total, hc]

theorem discipline_aggregator_witness :
    discipline_total
        (Table.mk ["id_employee", "discipline_points"]
          [[Value.int 5, Value.int 2], [Value.int 5, Value.int 3],
           [Value.int 5, Value.null]]) = some 5 ∧
    discipline_total (Table.mk ["id_employee"] [[Value.int 5]]) = some 0 ∧
    discipline_total (Table.mk ["id_employee", "discipline_points"] []) = some 0 := by
  refine ⟨?_, ?_, ?_⟩
  · have h := (discipline_aggregator
        (Table.mk ["id_employee", "discipline_points"]
          [[Value.int 5, Value.int 2], [Value.int 5, Value.int 3],
           [Value.int 5, Value.null]])).1
        [(2 : Rat), (3 : Rat)] (by decide) (by rfl)
    rw [h]
    show some (List.sum [(2 : Rat), 3]) = some 5
    norm_num
  · exact (discipline_aggregator _).2.1 (by decide)
  · exact (discipline_aggregator _).2.2 rfl

lemma astypeIntRows_forall₂ {idx : Nat} :
    ∀ {rows rs : List (List Value)}, astypeIntRows idx rows = some rs →
      List.Forall₂ (fun rIn rOut => ∃ n : Int,
        astype_int (cellAt idx rIn) = some n ∧ rOut = rIn.set idx (Value.int n)) rows rs := by
  intro rows
  induction rows with
  | nil =>
      intro rs h
      simp [astypeIntRows] at h
      subst h
      exact List.Forall₂.nil
  | cons r rest ih =>
      intro rs h
      unfold astypeIntRows at h
      cases hh : astype_int (cellAt idx r) with
      | none => rw [hh] at h; simp at h
      | some n =>
          rw [hh] at h
          cases hrest : astypeIntRows idx rest with
          | none => rw [hrest] at h; simp at h
          | some rs' =>
              rw [hrest] at h
              simp only [Option.some.injEq] at h
              subst h
              exact List.Forall₂.cons ⟨n, hh, rfl⟩ (ih hrest)

lemma astypeIntRows_int_cells {idx : Nat} :
    ∀ {rows rs : List (List Value)}, astypeIntRows idx rows = some rs →
      (∀ r ∈ rows, cellAt idx r ≠ Value.null) →
      ∀ r' ∈ rs, ∃ n : Int, cellAt idx r' = Value.int n := by
  intro rows
  induction rows with
  | nil =>
      intro rs h _
      simp [astypeIntRows] at h
      subst h
      intro r' hr'
      exact absurd hr' (List.not_mem_nil r')
  | cons r rest ih =>
      intro rs h hnn
      unfold astypeIntRows at h
      cases hh : astype_int (cellAt idx r) with
      | none => rw [hh] at h; simp at h
      | some n =>
          rw [hh] at h
          cases hrest : astypeIntRows idx rest with
          | none => rw [hrest] at h; simp at h
          | some rs' =>
              rw [hrest] at h
              simp only [Option.some.injEq] at h
              subst h
              intro r' hr'
              rcases List.mem_cons.mp hr' with hr' | hr'
              · subst hr'
                have hlt : idx < r.length :=
                  lt_of_cellAt_ne_null (hnn r (by simp))
                exact ⟨n, by rw [cellAt_set_self _ hlt]⟩
              · exact ih hrest (fun x hx => hnn x (by simp [hx])) r' hr'

/-- C3: `prepare_final` returns a table whose identifier column contains no
nulls and only integers, with at most as many rows as the input; the
surviving rows are exactly the input rows whose identifier was non-null
(each with its identifier cast to int, other cells untouched). -/
theorem prepare_final_normalizes (t t' : Table) (h : prepare_final t = some t') :
    t'.cols = t.cols ∧
    (∀ r ∈ t'.rows, ∃ n : Int, cellAt (t'.cols.indexOf "id_employee") r = Value.int n) ∧
    t'.rows.length ≤ t.rows.length ∧
    List.Forall₂ (fun rIn rOut => ∃ n : Int,
        astype_int (cellAt (t.cols.indexOf "id_employee") rIn) = some n ∧
        rOut = rIn.set (t.cols.indexOf "id_employee") (Value.int n))
      (t.rows.filter (fun r => cellAt (t.cols.indexOf "id_employee") r ≠ Value.null))
      t'.rows := by
  unfold prepare_final at h
  by_cases hc : "id_employee" ∈ t.cols
  · rw [if_pos hc] at h
    cases hrows : astypeIntRows (t.cols.indexOf "id_employee")
        (t.rows.filter (fun r =>
          cellAt (t.cols.indexOf "id_employee") r ≠ Value.null)) with
    | none => rw [hrows] at h; simp at h
    | some rs =>
        rw [hrows] at h
        simp only [Option.some.injEq] at h
        subst h
        have hf := astypeIntRows_forall₂ hrows
        refine ⟨rfl, ?_, ?_, hf⟩
        · intro r' hr'
          refine astypeIntRows_int_cells hrows ?_ r' hr'
          intro x hx
          have := List.mem_filter.mp hx
          simpa using this.2
        · calc rs.length
              = (t.rows.filter (fun r =>
                  cellAt (t.cols.indexOf "id_employee") r ≠ Value.null)).length :=
                hf.length_eq.symm
            _ ≤ t.rows.length := List.length_filter_le _ _
  · rw [if_neg hc] at h
    simp at h

theorem prepare_final_normalizes_witness :
    (Table.mk ["id_employee"] [[Value.int 7], [Value.int 2]]).cols =
      (Table.mk ["id_employee"] [[Value.str "7"], [Value.null], [Value.int 2]]).cols ∧
    (Table.mk ["id_employee"] [[Value.int 7], [Value.int 2]]).rows.length ≤
      (Table.mk ["id_employee"] [[Value.str "7"], [Value.null], [Value.int 2]]).rows.length := by
  have h := prepare_final_normalizes
      (Table.mk ["id_employee"] [[Value.str "7"], [Value.null], [Value.int 2]])
      (Table.mk ["id_employee"] [[Value.int 7], [Value.int 2]]) (by decide)
  exact ⟨h.1, h.2.2.1⟩

lemma coerceIdRows_filter_eq (idx : Nat) (eid : Int) :
    ∀ {rows : List (List Value)},
      (∀ r ∈ rows, coerce_id (cellAt idx r) ≠ none) →
      ∃ rs, coerceIdRows idx rows = some rs ∧
        rs.filter (fun r => cellAt idx r = Value.int eid) =
          (rows.filter (fun r => coerce_id (cellAt idx r) = some (Value.int eid))).map
            (fun r => r.set idx (Value.int eid)) := by
  intro rows
  induction rows with
  | nil => intro _; exact ⟨[], rfl, by simp⟩
  | cons r rest ih =>
      intro hok
      obtain ⟨rs', hrs', heq⟩ := ih (fun x hx => hok x (List.mem_cons_of_mem _ hx))
      cases hv : coerce_id (cellAt idx r) with
      | none => exact absurd hv (hok r (List.mem_cons_self _ _))
      | some v =>
          refine ⟨r.set idx v :: rs', ?_, ?_⟩
          · unfold coerceIdRows
            rw [hv, hrs']
          · by_cases hlt : idx < r.length
            · have hcell : cellAt idx (r.set idx v) = v := cellAt_set_self v hlt
              by_cases hveq : v = Value.int eid
              · subst hveq
                simp [List.filter_cons, hcell, hv, heq]
              · have h2 : coerce_id (cellAt idx r) ≠ some (Value.int eid) := by
                  rw [hv]
                  exact fun hc => hveq (Option.some.inj hc)
                simp [List.filter_cons, hcell, hveq, h2, heq]
            · have hle : r.length ≤ idx := Nat.le_of_not_lt hlt
              have hnull : cellAt idx r = Value.null := cellAt_of_length_le hle
              have hv' : Value.null = v := by
                rw [hnull] at hv
                exact Option.some.inj hv
              subst hv'
              have hset : r.set idx Value.null = r := List.set_eq_of_length_le hle
              have h2 : coerce_id (cellAt idx r) ≠ some (Value.int eid) := by
                rw [hnull]
                intro hc
                exact Value.noConfusion (Option.some.inj hc)
              have h3 : coerce_id Value.null ≠ some (Value.int eid) := fun hc =>
                Value.noConfusion (Option.some.inj hc)
              simp [List.filter_cons, hset, hnull, h2, h3, heq]

/-- C1: on a table with an `id_employee` column whose cells all coerce
(numbers and numeric text pass, unparseable text becomes null), the result
of `filtered_table` is exactly the rows whose coerced identifier equals
`employee_id` — in particular text identifiers match numeric ids, and
null (failed parses) matches no id. -/
theorem filtered_table_coerces_and_filters (t : Table) (employee_id : Int)
    (hcol : "id_employee" ∈ t.cols)
    (hok : ∀ r ∈ t.rows,
      coerce_id (cellAt (t.cols.indexOf "id_employee") r) ≠ none) :
    filtered_table t employee_id = some (Table.mk t.cols
      ((t.rows.filter (fun r =>
          coerce_id (cellAt (t.cols.indexOf "id_employee") r) =
            some (Value.int employee_id))).map
        (fun r => r.set (t.cols.indexOf "id_employee") (Value.int employee_id)))) := by
  obtain ⟨rs, hrs, heq⟩ :=
    coerceIdRows_filter_eq (t.cols.indexOf "id_employee") employee_id hok
  rw [filtered_table, if_pos hcol, hrs]
  simp only [heq]

theorem filtered_table_coerces_and_filters_witness :
    filtered_table (Table.mk ["id_employee", "v"]
        [[Value.str "12", Value.int 1], [Value.str "x", Value.int 2],
         [Value.int 7, Value.int 3]]) 12 =
      some (Table.mk ["id_employee", "v"] [[Value.int 12, Value.int 1]]) := by
  have h := filtered_table_coerces_and_filters (Table.mk ["id_employee", "v"]
      [[Value.str "12", Value.int 1], [Value.str "x", Value.int 2],
       [Value.int 7, Value.int 3]]) 12 (by decide) (by decide)
  rw [h]
  decide

lemma ratFloor_intCast (n : Int) : Rat.floor (n : Rat) = n := by
  rw [Rat.floor_def', Rat.num_intCast, Rat.den_intCast]
  simp

lemma roundHalfEven_intCast (n : Int) : roundHalfEven (n : Rat) = n := by
  unfold roundHalfEven
  rw [ratFloor_intCast, sub_self]
  rw [if_pos (by norm_num : (0 : Rat) < 1/2)]

lemma format2_eq (q : Rat) (n : Int) (h : q * 100 = (n : Rat)) :
    format2 q = (if n < 0 then "-" else "") ++
      toString (n.natAbs / 100) ++ "." ++ pad2 (n.natAbs % 100) := by
  unfold format2
  rw [h, roundHalfEven_intCast]

lemma pythonFloat?_of_ratOfValue? {v : Value} {q : Rat} (h : ratOfValue? v = some q) :
    pythonFloat? v = some (some q) := by
  cases v with
  | null => simp [ratOfValue?] at h
  | str s => simp [ratOfValue?] at h
  | int n =>
      simp [ratOfValue?] at h
      simp [pythonFloat?, h]
  | float p =>
      simp [ratOfValue?] at h
      simp [pythonFloat?, h]

/-- C6: the Ranks aggregator shows the arithmetic mean of `mark` to two
decimal places when the column exists and the filtered table is non-empty,
and the no-data sentinel when the column is absent or no rows matched. -/
theorem ranks_aggregator (t : Table) :
    (∀ m : Rat, "mark" ∈ t.cols → t.rows ≠ [] →
        series_mean (getCol t "mark") = some (some m) →
        ranks_line t = some ("Средний разряд (среднее mark): " ++ format2 m)) ∧
    ("mark" ∉ t.cols ∨ t.rows = [] →
        ranks_line t = some "Средний разряд (среднее mark): нет данных") := by
  constructor
  · intro m hc hr hm
    unfold ranks_line
    rw [if_pos ⟨hc, hr⟩, hm]
  · intro h
    unfold ranks_line
    rw [if_neg]
    rintro ⟨h1, h2⟩
    rcases h with h | h
    · exact h h1
    · exact h2 h

theorem ranks_aggregator_witness :
    ranks_line (Table.mk ["mark"] [[Value.int 3], [Value.int 4], [Value.int 5]]) =
      some "Средний разряд (среднее mark): 4.00" ∧
    ranks_line (Table.mk ["id_employee"] [[Value.int 1]]) =
      some "Средний разряд (среднее mark): нет данных" := by
  constructor
  · have hm : series_mean (getCol
        (Table.mk ["mark"] [[Value.int 3], [Value.int 4], [Value.int 5]]) "mark") =
        some (some 4) := by
      unfold series_mean
      rw [show numericCells (getCol
          (Table.mk ["mark"] [[Value.int 3], [Value.int 4], [Value.int 5]]) "mark") =
          some [(3 : Rat), 4, 5] from rfl]
      norm_num
      intro hcontra
      simp at hcontra
    have h := (ranks_aggregator
        (Table.mk ["mark"] [[Value.int 3], [Value.int 4], [Value.int 5]])).1 4
        (by decide) (by decide) hm
    rw [h, format2_eq 4 400 (by norm_num)]
    rfl
  · exact (ranks_aggregator _).2 (Or.inl (by decide))

/-- C8: the Performance aggregator reads the `performance_points` value of
the first filtered row and shows it to two decimal places; when the column
is absent or no rows matched it falls back to the no-data sentinel instead
of failing. -/
theorem performance_aggregator (t : Table) :
    (∀ q : Rat, "performance_points" ∈ t.cols → t.rows ≠ [] →
        ratOfValue? (cellAt (t.cols.indexOf "performance_points")
          (t.rows.headD [])) = some q →
        performance_line t = some ("Итоговый балл: " ++ format2 q)) ∧
    ("performance_points" ∉ t.cols ∨ t.rows = [] →
        performance_line t = some "Итоговый балл: нет данных") := by
  constructor
  · intro q hc hr hq
    unfold performance_line
    rw [if_pos ⟨hc, hr⟩, pythonFloat?_of_ratOfValue? hq]
  · intro h
    unfold performance_line
    rw [if_neg]
    rintro ⟨h1, h2⟩
    rcases h with h | h
    · exact h h1
    · exact h2 h

theorem performance_aggregator_witness :
    performance_line (Table.mk ["id_employee", "performance_points"]
        [[Value.int 5, Value.float (77/10)]]) = some "Итоговый балл: 7.70" ∧
    performance_line (Table.mk ["id_employee"] [[Value.int 5]]) =
      some "Итоговый балл: нет данных" := by
  constructor
  · have h := (performance_aggregator (Table.mk ["id_employee", "performance_points"]
        [[Value.int 5, Value.float (77/10)]])).1 (77/10)
        (by decide) (by decide) (by rfl)
    rw [h, format2_eq (77/10) 770 (by norm_num)]
    rfl
  · exact (performance_aggregator _).2 (Or.inl (by decide))

lemma mem_insertByCount {p b : Value × Nat} :
    ∀ {l : List (Value × Nat)}, b ∈ insertByCount p l ↔ b = p ∨ b ∈ l := by
  intro l
  induction l with
  | nil => simp [insertByCount]
  | cons q rest ih =>
      by_cases h : q.2 < p.2
      · simp [insertByCount, h]
      · simp [insertByCount, h, ih]
        tauto

lemma mem_sortByCountDesc {b : Value × Nat} :
    ∀ {l : List (Value × Nat)}, b ∈ sortByCountDesc l ↔ b ∈ l := by
  intro l
  induction l with
  | nil => simp [sortByCountDesc]
  | cons p rest ih =>
      simp [sortByCountDesc, mem_insertByCount, ih]

lemma pairwise_insertByCount (p : Value × Nat) {l : List (Value × Nat)}
    (h : List.Pairwise (fun a b => b.2 ≤ a.2) l) :
    List.Pairwise (fun a b => b.2 ≤ a.2) (insertByCount p l) := by
  induction l with
  | nil => simp [insertByCount]
  | cons q rest ih =>
      rcases List.pairwise_cons.mp h with ⟨hq, hrest⟩
      by_cases hlt : q.2 < p.2
      · rw [insertByCount, if_pos hlt]
        refine List.Pairwise.cons ?_ h
        intro b hb
        rcases List.mem_cons.mp hb with rfl | hb
        · exact Nat.le_of_lt hlt
        · exact Nat.le_trans (hq b hb) (Nat.le_of_lt hlt)
      · rw [insertByCount, if_neg hlt]
        refine List.Pairwise.cons ?_ (ih hrest)
        intro b hb
        rcases mem_insertByCount.mp hb with rfl | hb
        · exact Nat.le_of_not_lt hlt
        · exact hq b hb

lemma sorted_sortByCountDesc (l : List (Value × Nat)) :
    List.Pairwise (fun a b => b.2 ≤ a.2) (sortByCountDesc l) := by
  induction l with
  | nil => exact List.Pairwise.nil
  | cons p rest ih => exact pairwise_insertByCount p ih

lemma sum_insertByCount (p : Value × Nat) (l : List (Value × Nat)) :
    ((insertByCount p l).map Prod.snd).sum = p.2 + (l.map Prod.snd).sum := by
  induction l with
  | nil => simp [insertByCount]
  | cons q rest ih =>
      by_cases h : q.2 < p.2
      · simp [insertByCount, h]
      · simp [insertByCount, h, ih]
        omega

lemma sum_sortByCountDesc (l : List (Value × Nat)) :
    ((sortByCountDesc l).map Prod.snd).sum = (l.map Prod.snd).sum := by
  induction l with
  | nil => rfl
  | cons p rest ih => simp [sortByCountDesc, sum_insertByCount, ih]

lemma value_counts_sum (vs : List Value) :
    ((value_counts vs).map Prod.snd).sum = vs.length := by
  rw [value_counts, sum_sortByCountDesc, List.map_map]
  exact List.sum_map_count_dedup_eq_length vs

lemma value_counts_sorted (vs : List Value) :
    List.Pairwise (fun a b => b.2 ≤ a.2) (value_counts vs) :=
  sorted_sortByCountDesc _

lemma value_counts_counts {vs : List Value} {p : Value × Nat}
    (h : p ∈ value_counts vs) : p.2 = vs.count p.1 := by
  rw [value_counts] at h
  rcases List.mem_map.mp (mem_sortByCountDesc.mp h) with ⟨v, _, rfl⟩
  rfl

/-- C7: the Errors aggregator reports the number of filtered rows; when
rows exist and the grouping column is present it produces per-area and
per-product frequency breakdowns (missing values bucketed under the
"Не указано" label) whose counts are sorted descending, sum to the row
count, and agree with the per-value occurrence counts. -/
theorem errors_aggregator (t : Table) :
    errors_count t = t.rows.length ∧
    (∀ l, errors_area_counts t = some l →
        (l.map Prod.snd).sum = t.rows.length ∧
        List.Pairwise (fun a b => b.2 ≤ a.2) l ∧
        ∀ p ∈ l, p.2 =
          ((getCol t "area").map (fillna (Value.str "Не указано"))).count p.1) ∧
    (∀ l, errors_product_counts t = some l →
        (l.map Prod.snd).sum = t.rows.length ∧
        List.Pairwise (fun a b => b.2 ≤ a.2) l ∧
        ∀ p ∈ l, p.2 =
          ((getCol t "product").map (fillna (Value.str "Не указано"))).count p.1) ∧
    (t.rows.length ≠ 0 → "area" ∈ t.cols → errors_area_counts t ≠ none) := by
  refine ⟨rfl, ?_, ?_, ?_⟩
  · intro l h
    unfold errors_area_counts at h
    by_cases hc : t.rows.length ≠ 0 ∧ "area" ∈ t.cols
    · rw [if_pos hc] at h
      rcases Option.some.inj h with rfl
      refine ⟨?_, value_counts_sorted _, fun p hp => value_counts_counts hp⟩
      rw [value_counts_sum, List.length_map, getCol, List.length_map]
    · rw [if_neg hc] at h
      exact absurd h (Option.noConfusion)
  · intro l h
    unfold errors_product_counts at h
    by_cases hc : t.rows.length ≠ 0 ∧ "product" ∈ t.cols
    · rw [if_pos hc] at h
      rcases Option.some.inj h with rfl
      refine ⟨?_, value_counts_sorted _, fun p hp => value_counts_counts hp⟩
      rw [value_counts_sum, List.length_map, getCol, List.length_map]
    · rw [if_neg hc] at h
      exact absurd h (Option.noConfusion)
  · intro hn hc
    unfold errors_area_counts
    rw [if_pos ⟨hn, hc⟩]
    exact Option.noConfusion

theorem errors_aggregator_witness :
    errors_count (Table.mk ["id_employee", "area"]
        [[Value.int 5, Value.str "A"], [Value.int 5, Value.null],
         [Value.int 5, Value.str "A"]]) = 3 ∧
    errors_area_counts (Table.mk ["id_employee", "area"]
        [[Value.int 5, Value.str "A"], [Value.int 5, Value.null],
         [Value.int 5, Value.str "A"]]) =
      some [(Value.str "A", 2), (Value.str "Не указано", 1)] ∧
    (([(Value.str "A", 2), (Value.str "Не указано", 1)].map Prod.snd).sum = 3) := by
  have h := (errors_aggregator (Table.mk ["id_employee", "area"]
      [[Value.int 5, Value.str "A"], [Value.int 5, Value.null],
       [Value.int 5, Value.str "A"]])).2.1
      [(Value.str "A", 2), (Value.str "Не указано", 1)] (by decide)
  exact ⟨rfl, by decide, h.1⟩

lemma readT_append_left {h : Heap} {t : Table} {i : Nat} (hi : i < h.length) :
    readT (List.append h [t]) i = readT h i := by
  simp only [readT, List.get?_eq_getElem?]
  exact List.getElem?_append_left hi

lemma readT_set_ne {h : Heap} {t : Table} {c i : Nat} (hne : c ≠ i) :
    readT (h.set c t) i = readT h i := by
  simp only [readT, List.get?_eq_getElem?]
  exact List.getElem?_set_ne hne

lemma readT_set_self {h : Heap} {t : Table} {c : Nat} (hc : c < h.length) :
    readT (h.set c t) c = some t := by
  simp only [readT, List.get?_eq_getElem?]
  exact List.getElem?_set_self hc

lemma readT_append_self {h : Heap} {t : Table} :
    readT (List.append h [t]) h.length = some t := by
  simp only [readT, List.get?_eq_getElem?]
  exact List.getElem?_concat_length h t

lemma prepare_final_heap_frame (h : Heap) (a i : Nat) (hi : i < h.length) :
    readT (prepare_final_heap h a).1 i = readT h i := by
  unfold prepare_final_heap
  cases hdf : readT h a with
  | none => rfl
  | some df =>
      simp only [allocT]
      by_cases hc : "id_employee" ∈ df.cols
      · rw [if_pos hc]
        cases hcast : astypeIntRows (df.cols.indexOf "id_employee")
            (df.rows.filter (fun r =>
              cellAt (df.cols.indexOf "id_employee") r ≠ Value.null)) with
        | some rs =>
            simp only [writeT]
            rw [readT_set_ne (by simp; omega), readT_append_left (by simp; omega),
              readT_append_left hi]
        | none =>
            rw [readT_append_left (by simp; omega), readT_append_left hi]
      · rw [if_neg hc]
        exact readT_append_left hi

lemma prepare_final_heap_fresh (h : Heap) (a : Nat) :
    ∀ c, (prepare_final_heap h a).2 = some c → h.length ≤ c ∧
      ∃ df t', readT h a = some df ∧ prepare_final df = some t' ∧
        readT (prepare_final_heap h a).1 c = some t' := by
  intro c hres
  unfold prepare_final_heap at hres ⊢
  cases hdf : readT h a with
  | none => rw [hdf] at hres; exact absurd hres (by simp)
  | some df =>
      rw [hdf] at hres
      simp only [allocT] at hres ⊢
      by_cases hc : "id_employee" ∈ df.cols
      · rw [if_pos hc] at hres ⊢
        cases hcast : astypeIntRows (df.cols.indexOf "id_employee")
            (df.rows.filter (fun r =>
              cellAt (df.cols.indexOf "id_employee") r ≠ Value.null)) with
        | some rs =>
            rw [hcast] at hres
            rcases Option.some.inj hres with rfl
            refine ⟨by simp only [List.append_eq, List.length_append,
                List.length_cons, List.length_nil]; omega,
              df, ⟨df.cols, rs⟩, rfl, ?_, ?_⟩
            · unfold prepare_final
              rw [if_pos hc, hcast]
            · simp only [writeT]
              exact readT_set_self (by simp only [List.append_eq,
                List.length_append, List.length_cons, List.length_nil]; omega)
        | none =>
            rw [hcast] at hres
            exact absurd hres (by simp)
      · rw [if_neg hc] at hres
        exact absurd hres (by simp)

lemma filtered_table_heap_frame (h : Heap) (a i : Nat) (eid : Int)
    (hi : i < h.length) :
    readT (filtered_table_heap h a eid).1 i = readT h i := by
  unfold filtered_table_heap
  cases hdf : readT h a with
  | none => rfl
  | some df =>
      simp only [allocT]
      by_cases hc : "id_employee" ∈ df.cols
      · rw [if_pos hc]
        cases hcast : coerceIdRows (df.cols.indexOf "id_employee") df.rows with
        | some rs =>
            simp only [writeT]
            rw [readT_append_left (by simp; omega),
              readT_set_ne (by omega), readT_append_left hi]
        | none => exact readT_append_left hi
      · rw [if_neg hc]
        exact readT_append_left hi

lemma filtered_table_heap_fresh (h : Heap) (a : Nat) (eid : Int) :
    ∀ c, (filtered_table_heap h a eid).2 = some c → h.length ≤ c ∧
      ∃ df t', readT h a = some df ∧ filtered_table df eid = some t' ∧
        readT (filtered_table_heap h a eid).1 c = some t' := by
  intro c hres
  unfold filtered_table_heap at hres ⊢
  cases hdf : readT h a with
  | none => rw [hdf] at hres; exact absurd hres (by simp)
  | some df =>
      rw [hdf] at hres
      simp only [allocT] at hres ⊢
      by_cases hc : "id_employee" ∈ df.cols
      · rw [if_pos hc] at hres ⊢
        cases hcast : coerceIdRows (df.cols.indexOf "id_employee") df.rows with
        | some rs =>
            rw [hcast] at hres
            rcases Option.some.inj hres with rfl
            refine ⟨by simp only [writeT, List.length_set, List.append_eq,
                List.length_append, List.length_cons, List.length_nil]; omega,
              df,
              ⟨df.cols, rs.filter (fun r =>
                cellAt (df.cols.indexOf "id_employee") r = Value.int eid)⟩,
              rfl, ?_, ?_⟩
            · unfold filtered_table
              rw [if_pos hc, hcast]
            · exact readT_append_self
        | none =>
            rw [hcast] at hres
            exact absurd hres (by simp)
      · rw [if_neg hc] at hres ⊢
        rcases Option.some.inj hres with rfl
        refine ⟨le_refl _, df, ⟨df.cols, []⟩, rfl, ?_, readT_append_self⟩
        unfold filtered_table
        rw [if_neg hc]

/-- C9: `prepare_final` and `filtered_table` never mutate their input
table: run over an explicit heap of DataFrame objects, every pre-existing
object is unchanged afterwards, and the returned object is a freshly
allocated table holding the derived result. -/
theorem tables_not_mutated (h : Heap) (a : Nat) (eid : Int) (i : Nat)
    (hi : i < h.length) :
    readT (prepare_final_heap h a).1 i = readT h i ∧
    readT (filtered_table_heap h a eid).1 i = readT h i ∧
    (∀ c, (prepare_final_heap h a).2 = some c → h.length ≤ c ∧
      ∃ df t', readT h a = some df ∧ prepare_final df = some t' ∧
        readT (prepare_final_heap h a).1 c = some t') ∧
    (∀ c, (filtered_table_heap h a eid).2 = some c → h.length ≤ c ∧
      ∃ df t', readT h a = some df ∧ filtered_table df eid = some t' ∧
        readT (filtered_table_heap h a eid).1 c = some t') :=
  ⟨prepare_final_heap_frame h a i hi, filtered_table_heap_frame h a i eid hi,
    prepare_final_heap_fresh h a, filtered_table_heap_fresh h a eid⟩

theorem tables_not_mutated_witness :
    readT (prepare_final_heap [Table.mk ["id_employee"] [[Value.int 5]]] 0).1 0 =
      readT [Table.mk ["id_employee"] [[Value.int 5]]] 0 ∧
    readT (filtered_table_heap [Table.mk ["id_employee"] [[Value.int 5]]] 0 5).1 0 =
      readT [Table.mk ["id_employee"] [[Value.int 5]]] 0 :=
  ⟨(tables_not_mutated [Table.mk ["id_employee"] [[Value.int 5]]] 0 5 0 (by decide)).1,
    (tables_not_mutated [Table.mk ["id_employee"] [[Value.int 5]]] 0 5 0 (by decide)).2.1⟩
